import Mathlib

/-!
Shallow embedding of the song-soulmate repository core:
the affinity engine (src/services/affinity_service.py) and the caching
utilities (src/utils/cache.py, in-process fallback path), together with
theorems checking the natural-language specification against them.

Python floats are modelled as real numbers, Python dictionaries with fixed
key sets as structures, artist dictionaries with possibly-missing keys as
structures with Option fields, and a raised KeyError as an Except error.
-/

namespace SongSoulmate

/-- An artist record as handed to the affinity service: a dictionary with
keys id, name, popularity and genres; any key may be absent, which is
modelled as none. -/
structure Artist where
  id : Option String
  name : Option String
  popularity : Option Int
  genres : Option (List String)
deriving DecidableEq

/-- The condition surfaced when a required dictionary key is absent
(Python raises KeyError; the specification calls this MalformedInput). -/
inductive MalformedInput where
  | missingField (field : String)
deriving DecidableEq

/-- One entry of the common_artists output projection:
a dictionary with keys name and popularity only. -/
structure CommonArtistOut where
  name : String
  popularity : Int
deriving DecidableEq

/-- The metrics dictionary of an affinity report: four percentage strings. -/
structure Metrics where
  artist_similarity : String
  genre_similarity : String
  popularity_similarity : String
  overall_match : String
deriving DecidableEq

/-- The detailed_scores dictionary of an affinity report:
four integer percentages. -/
structure DetailedScores where
  common_artists : Int
  genre_similarity : Int
  popularity_similarity : Int
  diversity_compatibility : Int
deriving DecidableEq

/-- The dictionary returned by AffinityService.calculate_affinity. -/
structure AffinityReport where
  affinity_score : Int
  analysis : String
  common_artists : List CommonArtistOut
  common_genres : List String
  metrics : Metrics
  detailed_scores : DetailedScores

/-- Python round applied to a real value: round half to even. -/
noncomputable def pythonRound (x : ℝ) : ℤ :=
  if x - ⌊x⌋ < 1 / 2 then ⌊x⌋
  else if 1 / 2 < x - ⌊x⌋ then ⌊x⌋ + 1
  else if Even ⌊x⌋ then ⌊x⌋ else ⌊x⌋ + 1

/-- self.weights common_artists entry (affinity_service.py line 14). -/
noncomputable def weights_common_artists : ℝ := 0.4

/-- self.weights genre_similarity entry (affinity_service.py line 15). -/
noncomputable def weights_genre_similarity : ℝ := 0.3

/-- self.weights popularity_similarity entry (affinity_service.py line 16). -/
noncomputable def weights_popularity_similarity : ℝ := 0.2

/-- self.weights artist_diversity entry (affinity_service.py line 17). -/
noncomputable def weights_artist_diversity : ℝ := 0.1

/-- Reading a required dictionary key: artist[field].
Returns the value or raises (KeyError, i.e. MalformedInput). -/
def require {γ : Type} (field : String) (o : Option γ) : Except MalformedInput γ :=
  match o with
  | some v => Except.ok v
  | none => Except.error (MalformedInput.missingField field)

/-- Insert-or-overwrite on a Python dict modelled as an association list:
assignment d[k] = v keeps the first-insertion position of an existing key
and appends a new key at the end. -/
def dictUpsert (d : List (String × Artist)) (k : String) (v : Artist) :
    List (String × Artist) :=
  if d.any (fun p => p.1 == k) then
    d.map (fun p => if p.1 == k then (k, v) else p)
  else d ++ [(k, v)]

/-- The dict comprehension artists1_ids = (artist[id] : artist for artist in artists1)
of find_common_artists (line 108): iterates the list in order, raising on a
missing id key. -/
def buildIdDict : List Artist → List (String × Artist) →
    Except MalformedInput (List (String × Artist))
  | [], d => Except.ok d
  | a :: rest, d =>
    match a.id with
    | none => Except.error (MalformedInput.missingField "id")
    | some i => buildIdDict rest (dictUpsert d i a)

/-- The set comprehension artists2_ids (line 109), as the list of ids in
iteration order (set membership is the only use). Raises on a missing id. -/
def collectIds : List Artist → Except MalformedInput (List String)
  | [] => Except.ok []
  | a :: rest =>
    match a.id with
    | none => Except.error (MalformedInput.missingField "id")
    | some i =>
      match collectIds rest with
      | Except.error e => Except.error e
      | Except.ok is => Except.ok (i :: is)

/-- AffinityService.find_common_artists (lines 95-116): artists of the first
list whose id also appears in the second, in first-dict iteration order. -/
def find_common_artists (artists1 artists2 : List Artist) :
    Except MalformedInput (List Artist) :=
  match buildIdDict artists1 [] with
  | Except.error e => Except.error e
  | Except.ok artists1_ids =>
    match collectIds artists2 with
    | Except.error e => Except.error e
    | Except.ok artists2_ids =>
      Except.ok
        ((artists1_ids.filter (fun p => artists2_ids.contains p.1)).map Prod.snd)

/-- The flattened genre-tag list of a profile, with multiplicity: the list
built by _calculate_genre_diversity (lines 270-273); a missing or empty
genres key contributes nothing. -/
def genreList (artists : List Artist) : List String :=
  (artists.map (fun a => a.genres.getD [])).flatten

/-- AffinityService._extract_genres (lines 260-266): the set of genre tags
appearing in the profile. -/
def extract_genres (artists : List Artist) : Finset String :=
  (genreList artists).toFinset

/-- AffinityService.calculate_genre_similarity (lines 118-141):
Jaccard index of the two genre sets, 0 if either is empty. -/
noncomputable def calculate_genre_similarity (artists1 artists2 : List Artist) : ℝ :=
  let genres1 := extract_genres artists1
  let genres2 := extract_genres artists2
  if genres1 = ∅ ∨ genres2 = ∅ then 0
  else
    let intersection := (genres1 ∩ genres2).card
    let union := (genres1 ∪ genres2).card
    if 0 < union then (intersection : ℝ) / (union : ℝ) else 0

/-- AffinityService.calculate_popularity_similarity (lines 143-170):
similarity of mean popularity, a missing popularity key counting as 50. -/
noncomputable def calculate_popularity_similarity (artists1 artists2 : List Artist) : ℝ :=
  let pop1 : List Int := artists1.map (fun a => a.popularity.getD 50)
  let pop2 : List Int := artists2.map (fun a => a.popularity.getD 50)
  if pop1 = [] ∨ pop2 = [] then 0
  else
    let avg_pop1 : ℝ := ((pop1.sum : ℤ) : ℝ) / (pop1.length : ℝ)
    let avg_pop2 : ℝ := ((pop2.sum : ℤ) : ℝ) / (pop2.length : ℝ)
    let max_diff : ℝ := 100
    let actual_diff : ℝ := |avg_pop1 - avg_pop2|
    let similarity : ℝ := 1 - actual_diff / max_diff
    max 0 similarity

/-- AffinityService._calculate_genre_diversity (lines 268-290): Shannon
diversity (in bits) of the genre-tag frequency distribution, normalized by
log2 of the number of distinct genres. -/
noncomputable def calculate_genre_diversity (artists : List Artist) : ℝ :=
  let genres := genreList artists
  if genres = [] then 0
  else
    let total_genres := genres.length
    let diversity : ℝ :=
      ∑ g ∈ genres.toFinset,
        -(((genres.count g : ℝ) / (total_genres : ℝ)) *
          Real.logb 2 ((genres.count g : ℝ) / (total_genres : ℝ)))
    let max_diversity : ℝ :=
      if 1 < genres.toFinset.card then Real.logb 2 (genres.toFinset.card : ℝ) else 1
    if 0 < max_diversity then diversity / max_diversity else 0

/-- AffinityService.calculate_diversity_compatibility (lines 172-192). -/
noncomputable def calculate_diversity_compatibility (artists1 artists2 : List Artist) : ℝ :=
  let diversity1 := calculate_genre_diversity artists1
  let diversity2 := calculate_genre_diversity artists2
  let diversity_diff := |diversity1 - diversity2|
  let max_diversity_diff : ℝ := 1
  1 - diversity_diff / max_diversity_diff

/-- AffinityService.find_common_genres (lines 194-211): sorted list of the
intersection of the two genre sets. -/
def find_common_genres (artists1 artists2 : List Artist) : List String :=
  let genres1 := extract_genres artists1
  let genres2 := extract_genres artists2
  (genres1 ∩ genres2).sort (fun x y => x ≤ y)

/-- AffinityService.generate_analysis (lines 213-258). -/
def generate_analysis (score : ℤ) (common_count : ℕ) : String :=
  let pair : String × String :=
    if 85 ≤ score then
      ("exceptional musical compatibility", "You\x27re practically musical soulmates!")
    else if 70 ≤ score then
      ("great musical compatibility", "You have a lot in common musically.")
    else if 55 ≤ score then
      ("good musical compatibility", "You share some interesting musical preferences.")
    else if 40 ≤ score then
      ("moderate musical compatibility",
       "You have some overlapping tastes, but also unique preferences.")
    else if 25 ≤ score then
      ("limited musical compatibility",
       "Your musical tastes are quite different, but that\x27s not bad!")
    else
      ("very different musical preferences",
       "You each have unique musical styles - variety is the spice of life!")
  let common_text : String :=
    if 0 < common_count then
      if common_count = 1 then
        " You share " ++ toString common_count ++ " common artist."
      else
        " You share " ++ toString common_count ++ " common artists."
    else ""
  "You have " ++ pair.1 ++ "! " ++ pair.2 ++ common_text

/-- The list comprehension projecting each common artist to its name and
popularity (calculate_affinity lines 76-79): artist[name] may raise,
a missing popularity key defaults to 0 there. -/
def projectCommon : List Artist → Except MalformedInput (List CommonArtistOut)
  | [] => Except.ok []
  | a :: rest =>
    match a.name with
    | none => Except.error (MalformedInput.missingField "name")
    | some n =>
      match projectCommon rest with
      | Except.error e => Except.error e
      | Except.ok outs => Except.ok (CommonArtistOut.mk n (a.popularity.getD 0) :: outs)

/-- AffinityService._create_empty_result (lines 292-311). -/
def create_empty_result : AffinityReport :=
  { affinity_score := 0
    analysis := "Unable to calculate affinity - insufficient data."
    common_artists := []
    common_genres := []
    metrics :=
      { artist_similarity := "0%"
        genre_similarity := "0%"
        popularity_similarity := "0%"
        overall_match := "0%" }
    detailed_scores :=
      { common_artists := 0
        genre_similarity := 0
        popularity_similarity := 0
        diversity_compatibility := 0 } }

/-- AffinityService.calculate_affinity (lines 20-93). -/
noncomputable def calculate_affinity (user1_artists user2_artists : List Artist) :
    Except MalformedInput AffinityReport :=
  if user1_artists.isEmpty || user2_artists.isEmpty then
    Except.ok create_empty_result
  else
    match find_common_artists user1_artists user2_artists with
    | Except.error e => Except.error e
    | Except.ok common_artists =>
      let common_artist_score : ℝ :=
        (common_artists.length : ℝ) /
          ((max user1_artists.length user2_artists.length : ℕ) : ℝ)
      let genre_similarity_score := calculate_genre_similarity user1_artists user2_artists
      let popularity_similarity_score :=
        calculate_popularity_similarity user1_artists user2_artists
      let diversity_score := calculate_diversity_compatibility user1_artists user2_artists
      let overall_score : ℝ :=
        common_artist_score * weights_common_artists
          + genre_similarity_score * weights_genre_similarity
          + popularity_similarity_score * weights_popularity_similarity
          + diversity_score * weights_artist_diversity
      let affinity_percentage := pythonRound (overall_score * 100)
      let analysis := generate_analysis affinity_percentage common_artists.length
      let common_genres := find_common_genres user1_artists user2_artists
      match projectCommon common_artists with
      | Except.error e => Except.error e
      | Except.ok commonOut =>
        Except.ok
          { affinity_score := affinity_percentage
            analysis := analysis
            common_artists := commonOut
            common_genres := common_genres
            metrics :=
              { artist_similarity :=
                  toString (pythonRound (common_artist_score * 100)) ++ "%"
                genre_similarity :=
                  toString (pythonRound (genre_similarity_score * 100)) ++ "%"
                popularity_similarity :=
                  toString (pythonRound (popularity_similarity_score * 100)) ++ "%"
                overall_match := toString affinity_percentage ++ "%" }
            detailed_scores :=
              { common_artists := pythonRound (common_artist_score * 100)
                genre_similarity := pythonRound (genre_similarity_score * 100)
                popularity_similarity := pythonRound (popularity_similarity_score * 100)
                diversity_compatibility := pythonRound (diversity_score * 100) } }

/-!
Cache model: the in-process fallback path of CacheManager (cache.py), where
use_redis is false. memory_cache is a Python dict from key strings to
values, modelled as an association list in insertion order. Python values
that may be None are modelled as Option-valued where relevant.
-/

/-- A cache store state: the memory_cache dict, keys in insertion order. -/
abbrev Store (V : Type) := List (String × V)

/-- Raw dict lookup memory_cache.get(key): the stored value if the key is
present (dicts hold at most one entry per key; lookup finds the first). -/
def cacheGet {V : Type} (st : Store V) (k : String) : Option V :=
  (st.find? (fun p => p.1 == k)).map Prod.snd

/-- CacheManager.set on the memory path (cache.py lines 77-80): dict
assignment, overwriting in place or appending; the expire argument is
ignored by the in-process store. -/
def cacheSet {V : Type} (st : Store V) (k : String) (v : V) (expire : ℕ) : Store V :=
  if st.any (fun p => p.1 == k) then
    st.map (fun p => if p.1 == k then (k, v) else p)
  else st ++ [(k, v)]

/-- CacheManager.get on the memory path (cache.py line 66) for values that
may themselves be None: memory_cache.get(key) returns the stored value or
None when the key is absent, conflating the two when the stored value is
None. -/
def managerGet {W : Type} (st : Store (Option W)) (k : String) : Option W :=
  match cacheGet st k with
  | some v => v
  | none => none

/-- One call through the cached decorator's wrapper (cache.py lines
172-191) on the memory path, threading the store and a count of how often
the wrapped function has been invoked. keyOf models the derived cache key
of the argument, f the wrapped function (whose Python result may be None,
hence Option), expire the configured TTL. On a non-None cached value the
wrapped function is not invoked; otherwise it runs and its result is
stored. -/
def cachedCall {α W : Type} (keyOf : α → String) (f : α → Option W) (expire : ℕ)
    (a : α) (st : Store (Option W)) (calls : ℕ) :
    Option W × Store (Option W) × ℕ :=
  let cache_key := keyOf a
  match managerGet st cache_key with
  | some v => (some v, st, calls)
  | none =>
    let result := f a
    (result, cacheSet st cache_key result expire, calls + 1)

/-- Python substring test pat in s. -/
def containsSubstr (s pat : String) : Bool :=
  s.toList.tails.any (fun t => pat.toList.isPrefixOf t)

/-- Python dict pop(key, None): remove the entry with the given key. -/
def eraseKey {V : Type} (st : Store V) (k : String) : Store V :=
  st.filter (fun p => !(p.1 == k))

/-- invalidate_user_cache on the memory path (cache.py lines 237-246):
collect the keys containing user_id as a substring, then pop each. -/
def invalidate_user_cache {V : Type} (user_id : String) (st : Store V) : Store V :=
  let keys_to_remove := (st.map Prod.fst).filter (fun k => containsSubstr k user_id)
  keys_to_remove.foldl (fun s k => eraseKey s k) st

/-!
Well-formedness predicates on profiles, spec-side score definitions
(formulas as stated in the specification text, used to compare against the
code-side definitions above), and concrete inputs used by witnesses.
-/

/-- Every record of the profile carries an id key. -/
def HasIds (A : List Artist) : Prop := ∀ a ∈ A, a.id.isSome = true

/-- Every record of the profile carries a name key. -/
def HasNames (A : List Artist) : Prop := ∀ a ∈ A, a.name.isSome = true

/-- Every record of the profile carries a popularity key. -/
def HasPops (A : List Artist) : Prop := ∀ a ∈ A, a.popularity.isSome = true

/-- Every popularity value of the profile lies in [0, 100]. -/
def PopsInRange (A : List Artist) : Prop :=
  ∀ a ∈ A, 0 ≤ a.popularity.getD 50 ∧ a.popularity.getD 50 ≤ 100

/-- Artist ids are unique within the profile (spec data-model invariant). -/
def UniqueIds (A : List Artist) : Prop := (A.filterMap Artist.id).Nodup

instance decHasIds (A : List Artist) : Decidable (HasIds A) :=
  inferInstanceAs (Decidable (∀ a ∈ A, a.id.isSome = true))

instance decHasNames (A : List Artist) : Decidable (HasNames A) :=
  inferInstanceAs (Decidable (∀ a ∈ A, a.name.isSome = true))

instance decHasPops (A : List Artist) : Decidable (HasPops A) :=
  inferInstanceAs (Decidable (∀ a ∈ A, a.popularity.isSome = true))

instance decPopsInRange (A : List Artist) : Decidable (PopsInRange A) :=
  inferInstanceAs (Decidable (∀ a ∈ A, 0 ≤ a.popularity.getD 50 ∧ a.popularity.getD 50 ≤ 100))

instance decUniqueIds (A : List Artist) : Decidable (UniqueIds A) :=
  inferInstanceAs (Decidable ((A.filterMap Artist.id).Nodup))

/-- The id of every artist of a profile, in order (defaulting an absent
id, which never occurs under HasIds). -/
def idsOf (A : List Artist) : List String :=
  A.map (fun a => a.id.getD "")

/-- The artists of the first profile whose id also appears in the second
profile, in first-profile order (the form find_common_artists reduces to
when ids are present and unique in the first profile). -/
def commonList (A B : List Artist) : List Artist :=
  A.filter (fun a => (idsOf B).contains (a.id.getD ""))

/-- The report calculate_affinity produces on non-empty profiles with
present, unique ids and present names, written with commonList in place of
the dict computation. -/
noncomputable def reportOf (A B : List Artist) : AffinityReport :=
  let common := commonList A B
  let common_artist_score : ℝ :=
    (common.length : ℝ) / ((max A.length B.length : ℕ) : ℝ)
  let genre_similarity_score := calculate_genre_similarity A B
  let popularity_similarity_score := calculate_popularity_similarity A B
  let diversity_score := calculate_diversity_compatibility A B
  let overall_score : ℝ :=
    common_artist_score * weights_common_artists
      + genre_similarity_score * weights_genre_similarity
      + popularity_similarity_score * weights_popularity_similarity
      + diversity_score * weights_artist_diversity
  let affinity_percentage := pythonRound (overall_score * 100)
  { affinity_score := affinity_percentage
    analysis := generate_analysis affinity_percentage common.length
    common_artists :=
      common.map (fun a => CommonArtistOut.mk (a.name.getD "") (a.popularity.getD 0))
    common_genres := find_common_genres A B
    metrics :=
      { artist_similarity := toString (pythonRound (common_artist_score * 100)) ++ "%"
        genre_similarity := toString (pythonRound (genre_similarity_score * 100)) ++ "%"
        popularity_similarity :=
          toString (pythonRound (popularity_similarity_score * 100)) ++ "%"
        overall_match := toString affinity_percentage ++ "%" }
    detailed_scores :=
      { common_artists := pythonRound (common_artist_score * 100)
        genre_similarity := pythonRound (genre_similarity_score * 100)
        popularity_similarity := pythonRound (popularity_similarity_score * 100)
        diversity_compatibility := pythonRound (diversity_score * 100) } }

/-- Spec formula: common-artist overlap, the number of ids shared by the
two profiles divided by the size of the larger profile. -/
noncomputable def spec_common_artist_score (A B : List Artist) : ℝ :=
  (((A.filterMap Artist.id).toFinset ∩ (B.filterMap Artist.id).toFinset).card : ℝ) /
    ((max A.length B.length : ℕ) : ℝ)

/-- Spec formula: Jaccard index of the two flattened genre sets, 0 if
either is empty. -/
noncomputable def spec_genre_score (A B : List Artist) : ℝ :=
  if extract_genres A = ∅ ∨ extract_genres B = ∅ then 0
  else
    ((extract_genres A ∩ extract_genres B).card : ℝ) /
      ((extract_genres A ∪ extract_genres B).card : ℝ)

/-- Spec formula: mean popularity of a profile. -/
noncomputable def spec_mean_popularity (A : List Artist) : ℝ :=
  ((A.filterMap Artist.popularity).sum : ℝ) /
    ((A.filterMap Artist.popularity).length : ℝ)

/-- Spec formula: popularity similarity, 1 minus the mean-popularity gap
over 100, floored at 0. -/
noncomputable def spec_popularity_score (A B : List Artist) : ℝ :=
  max 0 (1 - |spec_mean_popularity A - spec_mean_popularity B| / 100)

/-- Spec formula: Shannon entropy in bits of the genre-tag frequency
distribution divided by log2 of the number of distinct genres, 0 when
there are 0 or 1 distinct genres. -/
noncomputable def spec_normalized_entropy (genres : List String) : ℝ :=
  if genres.toFinset.card ≤ 1 then 0
  else
    (∑ g ∈ genres.toFinset,
        -(((genres.count g : ℝ) / (genres.length : ℝ)) *
          Real.logb 2 ((genres.count g : ℝ) / (genres.length : ℝ)))) /
      Real.logb 2 (genres.toFinset.card : ℝ)

/-- Spec formula: diversity compatibility, 1 minus the gap between the two
normalized entropies. -/
noncomputable def spec_diversity_score (A B : List Artist) : ℝ :=
  1 - |spec_normalized_entropy (genreList A) - spec_normalized_entropy (genreList B)|

/-- Spec formula: the weighted sum 0.4, 0.3, 0.2, 0.1 of the four
sub-scores. -/
noncomputable def spec_overall_score (A B : List Artist) : ℝ :=
  0.4 * spec_common_artist_score A B + 0.3 * spec_genre_score A B
    + 0.2 * spec_popularity_score A B + 0.1 * spec_diversity_score A B

/-- Replace a missing popularity key by an explicit popularity 50. -/
def fillPopularity (a : Artist) : Artist :=
  { a with popularity := some (a.popularity.getD 50) }

/-- Replace a missing genres key by an explicit empty genre list. -/
def fillGenres (a : Artist) : Artist :=
  { a with genres := some (a.genres.getD []) }

/-- Concrete artist used by witnesses. -/
def artistA1 : Artist :=
  { id := some "1", name := some "The Beatles", popularity := some 85
    genres := some ["rock", "pop"] }

/-- Concrete artist used by witnesses. -/
def artistA2 : Artist :=
  { id := some "2", name := some "Radiohead", popularity := some 82
    genres := some ["rock", "art rock"] }

/-- Concrete artist used by witnesses. -/
def artistB2 : Artist :=
  { id := some "5", name := some "Taylor Swift", popularity := some 100
    genres := some ["pop", "country"] }

/-- Concrete profile used by witnesses. -/
def sampleA : List Artist := [artistA1, artistA2]

/-- Concrete profile used by witnesses. -/
def sampleB : List Artist := [artistA1, artistB2]

/-- Concrete artist with a missing popularity key, partner of the
record below in the default-value counterexample. -/
def artistNoPop : Artist :=
  { id := some "x", name := some "n", popularity := none, genres := some ["rock"] }

/-- Concrete artist with missing popularity and genres keys. -/
def artistNoPopB : Artist :=
  { id := some "x", name := some "m", popularity := none, genres := none }

/-- Concrete one-artist profile with a missing popularity key. -/
def profileNoPopA : List Artist := [artistNoPop]

/-- Concrete one-artist profile with missing popularity and genres keys. -/
def profileNoPopB : List Artist := [artistNoPopB]

/-! Theorems about the cache model. -/

theorem find?_map_upsert {V : Type} (k : String) (v : V) :
    ∀ st : Store V, st.any (fun q => q.1 == k) = true →
      (st.map (fun p => if p.1 == k then (k, v) else p)).find? (fun p => p.1 == k)
        = some (k, v) := by
  intro st
  induction st with
  | nil => intro h; simp at h
  | cons p st ih =>
    intro h
    by_cases hp : p.1 = k
    · simp [hp]
    · have hbeq : (p.1 == k) = false := beq_eq_false_iff_ne.mpr hp
      have hany : st.any (fun q => q.1 == k) = true := by
        simpa [hbeq] using h
      rw [List.map_cons, if_neg (by simp [hbeq] : ¬ (p.1 == k) = true),
        List.find?_cons_of_neg _ (by simp [hbeq])]
      exact ih hany

theorem cacheGet_cacheSet_self {V : Type} (st : Store V) (k : String) (v : V) (e : ℕ) :
    cacheGet (cacheSet st k v e) k = some v := by
  unfold cacheSet
  by_cases hany : st.any (fun p => p.1 == k) = true
  · rw [if_pos hany]
    unfold cacheGet
    rw [find?_map_upsert k v st hany]
    rfl
  · rw [if_neg hany]
    unfold cacheGet
    rw [List.find?_append]
    have hnone : st.find? (fun p => p.1 == k) = none := by
      rw [List.find?_eq_none]
      intro x hx hpx
      exact hany (List.any_eq_true.mpr ⟨x, hx, hpx⟩)
    rw [hnone]
    simp

theorem foldl_eraseKey_eq_filter {V : Type} (ks : List String) (st : Store V) :
    ks.foldl (fun s k => eraseKey s k) st
      = st.filter (fun p => !(ks.contains p.1)) := by
  induction ks generalizing st with
  | nil => simp
  | cons k ks ih =>
    simp only [List.foldl_cons]
    rw [ih]
    unfold eraseKey
    rw [List.filter_filter]
    apply List.filter_congr
    intro p _
    simp only [List.contains_cons, Bool.not_or]
    rcases h : p.1 == k <;> simp [h]

/-- Claim C9: on the in-process fallback store, invalidate_user_cache
removes exactly the entries whose key contains the identifier as a
substring; every other entry survives with the same key, value and
position. -/
theorem invalidate_user_cache_spec {V : Type} (user_id : String) (st : Store V) :
    invalidate_user_cache user_id st
        = st.filter (fun p => !(containsSubstr p.1 user_id)) ∧
      ∀ k v, ((k, v) ∈ invalidate_user_cache user_id st ↔
        ((k, v) ∈ st ∧ containsSubstr k user_id = false)) := by
  have hmain : invalidate_user_cache user_id st
      = st.filter (fun p => !(containsSubstr p.1 user_id)) := by
    unfold invalidate_user_cache
    rw [foldl_eraseKey_eq_filter]
    apply List.filter_congr
    intro p hp
    by_cases hc : containsSubstr p.1 user_id
    · have hmem : p.1 ∈ (st.map Prod.fst).filter (fun k => containsSubstr k user_id) := by
        rw [List.mem_filter]
        exact ⟨List.mem_map_of_mem Prod.fst hp, by simpa using hc⟩
      have hcont : ((st.map Prod.fst).filter
          (fun k => containsSubstr k user_id)).contains p.1 = true := by
        simpa using hmem
      rw [hcont]
      simp [hc]
    · have hnot : p.1 ∉ (st.map Prod.fst).filter (fun k => containsSubstr k user_id) := by
        rw [List.mem_filter]
        intro hmem
        exact hc (by simpa using hmem.2)
      have hcont : ((st.map Prod.fst).filter
          (fun k => containsSubstr k user_id)).contains p.1 = false := by
        simpa using hnot
      rw [hcont]
      simp [hc]
  refine ⟨hmain, ?_⟩
  intro k v
  rw [hmain, List.mem_filter]
  simp

/-- Claim C8 (amended): the memoization wrapper returns a cached non-None
value without invoking the wrapped function, and on a miss invokes it,
stores the result and returns it; for a wrapped function whose result is
not None, two calls with identical arguments starting from an empty cache
invoke it exactly once, and a further call whose arguments derive a
different cache key invokes it again. -/
theorem cached_wrapper_memoizes {α W : Type} (keyOf : α → String) (f : α → Option W)
    (expire : ℕ) (a b : α) (st : Store (Option W)) (calls : ℕ)
    (hres : f a ≠ none) (hkey : keyOf b ≠ keyOf a) :
    (∀ v, managerGet st (keyOf a) = some v →
        cachedCall keyOf f expire a st calls = (some v, st, calls)) ∧
    (managerGet st (keyOf a) = none →
        cachedCall keyOf f expire a st calls
          = (f a, cacheSet st (keyOf a) (f a) expire, calls + 1)) ∧
    (cachedCall keyOf f expire a [] 0).2.2 = 1 ∧
    (cachedCall keyOf f expire a (cachedCall keyOf f expire a [] 0).2.1
        (cachedCall keyOf f expire a [] 0).2.2).2.2 = 1 ∧
    (cachedCall keyOf f expire b (cachedCall keyOf f expire a [] 0).2.1
        (cachedCall keyOf f expire a [] 0).2.2).2.2 = 2 := by
  obtain ⟨w, hw⟩ := Option.ne_none_iff_exists'.mp hres
  have hkeybeq : (keyOf a == keyOf b) = false := beq_eq_false_iff_ne.mpr (Ne.symm hkey)
  refine ⟨?_, ?_, ?_, ?_, ?_⟩
  · intro v hv
    simp [cachedCall, hv]
  · intro hv
    simp [cachedCall, hv]
  · simp [cachedCall, managerGet, cacheGet]
  · simp [cachedCall, managerGet, cacheGet, cacheSet, hw]
  · simp [cachedCall, managerGet, cacheGet, cacheSet, hw, hkeybeq]

/-- Witness for the amended memoization claim at a concrete wrapped
function: the hypotheses hold and two identical calls from an empty cache
invoke the function once. -/
theorem cached_wrapper_memoizes_witness :
    ((fun _ : ℕ => some (0 : ℕ)) 0 ≠ none) ∧ ((fun n : ℕ => toString n) 1 ≠ (fun n : ℕ => toString n) 0) ∧
    (cachedCall (fun n : ℕ => toString n) (fun _ => some (0 : ℕ)) 3600 0
        (cachedCall (fun n : ℕ => toString n) (fun _ => some (0 : ℕ)) 3600 0 [] 0).2.1
        (cachedCall (fun n : ℕ => toString n) (fun _ => some (0 : ℕ)) 3600 0 [] 0).2.2).2.2 = 1 :=
  ⟨by decide, by decide,
    (cached_wrapper_memoizes (fun n : ℕ => toString n) (fun _ => some (0 : ℕ)) 3600 0 1 [] 0
      (by decide) (by decide)).2.2.2.1⟩

/-- Counterexample to claim C8 as stated: a wrapped function whose result
is None is invoked twice by two calls with identical arguments from an
empty cache, not exactly once. -/
theorem cached_counterexample_none_result :
    (cachedCall (fun _ : ℕ => "k") (fun _ => (none : Option ℕ)) 3600 0
        (cachedCall (fun _ : ℕ => "k") (fun _ => (none : Option ℕ)) 3600 0 [] 0).2.1
        (cachedCall (fun _ : ℕ => "k") (fun _ => (none : Option ℕ)) 3600 0 [] 0).2.2).2.2 = 2
    ∧ ¬ ((cachedCall (fun _ : ℕ => "k") (fun _ => (none : Option ℕ)) 3600 0
        (cachedCall (fun _ : ℕ => "k") (fun _ => (none : Option ℕ)) 3600 0 [] 0).2.1
        (cachedCall (fun _ : ℕ => "k") (fun _ => (none : Option ℕ)) 3600 0 [] 0).2.2).2.2 = 1) := by
  constructor
  · rfl
  · decide

/-- Claim C10: a None result is never served from the cache: whether the
key is absent or the stored value is None, the wrapper invokes the wrapped
function again (incrementing the invocation count), and the store
afterwards still records the None value via set. -/
theorem cached_none_never_served {α W : Type} (keyOf : α → String) (f : α → Option W)
    (expire : ℕ) (a : α) (st : Store (Option W)) (calls : ℕ)
    (hres : f a = none)
    (hst : cacheGet st (keyOf a) = none ∨ cacheGet st (keyOf a) = some none) :
    cachedCall keyOf f expire a st calls
        = (none, cacheSet st (keyOf a) none expire, calls + 1) ∧
      cacheGet (cacheSet st (keyOf a) none expire) (keyOf a) = some none := by
  have hget : managerGet st (keyOf a) = none := by
    unfold managerGet
    rcases hst with h | h <;> rw [h]
  constructor
  · simp [cachedCall, hget, hres]
  · exact cacheGet_cacheSet_self st (keyOf a) none expire

/-- Witness for the None-result claim at a concrete wrapped function
starting from the empty store. -/
theorem cached_none_never_served_witness :
    ((fun _ : ℕ => (none : Option ℕ)) 0 = none) ∧
    (cacheGet ([] : Store (Option ℕ)) "k" = none ∨
      cacheGet ([] : Store (Option ℕ)) "k" = some none) ∧
    cachedCall (fun _ : ℕ => "k") (fun _ => (none : Option ℕ)) 3600 0 [] 0
      = (none, cacheSet [] "k" none 3600, 0 + 1) :=
  ⟨rfl, Or.inl rfl,
    (cached_none_never_served (fun _ : ℕ => "k") (fun _ => (none : Option ℕ)) 3600 0 [] 0
      rfl (Or.inl rfl)).1⟩

/-! Properties of Python rounding. -/

theorem pythonRound_nonneg {x : ℝ} (hx : 0 ≤ x) : 0 ≤ pythonRound x := by
  have h0 : 0 ≤ ⌊x⌋ := Int.floor_nonneg.mpr hx
  unfold pythonRound
  split_ifs <;> omega

theorem pythonRound_le {x : ℝ} {n : ℤ} (hx : x ≤ (n : ℝ)) : pythonRound x ≤ n := by
  have hfl : ⌊x⌋ ≤ n := by
    have := Int.floor_le_floor hx
    rwa [Int.floor_intCast] at this
  have hstep : ¬ x - ⌊x⌋ < 1 / 2 → ⌊x⌋ + 1 ≤ n := by
    intro h1
    push_neg at h1
    have hle : (⌊x⌋ : ℝ) + 1 / 2 ≤ (n : ℝ) := by
      have := Int.floor_le x
      linarith
    have : (⌊x⌋ : ℝ) < (n : ℝ) := by linarith
    exact_mod_cast Int.add_one_le_of_lt (by exact_mod_cast this)
  unfold pythonRound
  split_ifs with h1 h2 h3
  · exact hfl
  · exact hstep h1
  · exact hfl
  · exact hstep h1

theorem pythonRound_intCast (n : ℤ) : pythonRound (n : ℝ) = n := by
  unfold pythonRound
  rw [Int.floor_intCast]
  rw [if_pos]
  rw [sub_self]
  norm_num

/-- Claim C2: with either profile empty, calculate_affinity returns the
fixed empty report (score 0, all metric percentages 0%, all detailed
scores 0, an insufficient-data analysis, empty common collections) and
raises no error. -/
theorem calculate_affinity_empty (A B : List Artist) :
    calculate_affinity A [] = Except.ok
      { affinity_score := 0
        analysis := "Unable to calculate affinity - insufficient data."
        common_artists := []
        common_genres := []
        metrics :=
          { artist_similarity := "0%", genre_similarity := "0%"
            popularity_similarity := "0%", overall_match := "0%" }
        detailed_scores :=
          { common_artists := 0, genre_similarity := 0
            popularity_similarity := 0, diversity_compatibility := 0 } } ∧
    calculate_affinity [] B = Except.ok
      { affinity_score := 0
        analysis := "Unable to calculate affinity - insufficient data."
        common_artists := []
        common_genres := []
        metrics :=
          { artist_similarity := "0%", genre_similarity := "0%"
            popularity_similarity := "0%", overall_match := "0%" }
        detailed_scores :=
          { common_artists := 0, genre_similarity := 0
            popularity_similarity := 0, diversity_compatibility := 0 } } := by
  constructor <;> simp [calculate_affinity, create_empty_result]

/-! Structural lemmas: reduction of the dict-based common-artist
computation to a filter, and success of the projection, on profiles whose
records carry the required keys. -/

theorem filterMap_id_eq_idsOf (A : List Artist) (h : HasIds A) :
    A.filterMap Artist.id = idsOf A := by
  induction A with
  | nil => rfl
  | cons a rest ih =>
    obtain ⟨i, hi⟩ := Option.isSome_iff_exists.mp (h a (by simp))
    have hrest : HasIds rest := fun x hx => h x (by simp [hx])
    simp [List.filterMap_cons, hi, idsOf, ih hrest]

theorem filterMap_pop_eq_map (A : List Artist) (h : HasPops A) :
    A.filterMap Artist.popularity = A.map (fun a => a.popularity.getD 50) := by
  induction A with
  | nil => rfl
  | cons a rest ih =>
    obtain ⟨p, hp⟩ := Option.isSome_iff_exists.mp (h a (by simp))
    have hrest : HasPops rest := fun x hx => h x (by simp [hx])
    simp [List.filterMap_cons, hp, ih hrest]

theorem dictUpsert_not_mem (d : List (String × Artist)) (i : String) (a : Artist)
    (h : ∀ p ∈ d, p.1 ≠ i) : dictUpsert d i a = d ++ [(i, a)] := by
  have hcond : d.any (fun p => p.1 == i) = false := by
    apply List.any_eq_false.mpr
    intro p hp
    simpa using h p hp
  unfold dictUpsert
  rw [hcond]
  simp

theorem buildIdDict_ok (A : List Artist) :
    ∀ d : List (String × Artist), HasIds A → (idsOf A).Nodup →
      (∀ p ∈ d, p.1 ∉ idsOf A) →
      buildIdDict A d = Except.ok (d ++ A.map (fun a => (a.id.getD "", a))) := by
  induction A with
  | nil => intro d _ _ _; simp [buildIdDict]
  | cons a rest ih =>
    intro d hids hnodup hdisj
    obtain ⟨i, hi⟩ := Option.isSome_iff_exists.mp (hids a (by simp))
    have hidv : a.id.getD "" = i := by rw [hi]; rfl
    have hconsids : idsOf (a :: rest) = i :: idsOf rest := by
      simp [idsOf, hidv]
    have hrestids : HasIds rest := fun x hx => hids x (by simp [hx])
    have hnodup' : (idsOf rest).Nodup := by
      rw [hconsids] at hnodup
      exact hnodup.of_cons
    have hnotin : i ∉ idsOf rest := by
      rw [hconsids] at hnodup
      exact (List.nodup_cons.mp hnodup).1
    have hupsert : dictUpsert d i a = d ++ [(i, a)] := by
      apply dictUpsert_not_mem
      intro p hp heq
      exact hdisj p hp (by rw [hconsids, heq]; simp)
    have hdisj' : ∀ p ∈ d ++ [(i, a)], p.1 ∉ idsOf rest := by
      intro p hp
      rcases List.mem_append.mp hp with hpd | hpa
      · intro hmem
        exact hdisj p hpd (by rw [hconsids]; simp [hmem])
      · have : p = (i, a) := by simpa using hpa
        rw [this]
        exact hnotin
    have hstep : buildIdDict (a :: rest) d = buildIdDict rest (dictUpsert d i a) := by
      simp [buildIdDict, hi]
    rw [hstep, hupsert, ih (d ++ [(i, a)]) hrestids hnodup' hdisj']
    simp [hidv]

theorem collectIds_ok (B : List Artist) (h : HasIds B) :
    collectIds B = Except.ok (idsOf B) := by
  induction B with
  | nil => rfl
  | cons b rest ih =>
    obtain ⟨i, hi⟩ := Option.isSome_iff_exists.mp (h b (by simp))
    have hrest : HasIds rest := fun x hx => h x (by simp [hx])
    unfold collectIds
    rw [hi, ih hrest]
    simp [idsOf, hi]

theorem map_pair_filter_snd (B : List Artist) :
    ∀ A : List Artist,
      ((A.map (fun a => (a.id.getD "", a))).filter
          (fun p => (idsOf B).contains p.1)).map Prod.snd
        = commonList A B := by
  intro A
  induction A with
  | nil => rfl
  | cons a rest ih =>
    unfold commonList at ih ⊢
    simp only [List.map_cons, List.filter_cons]
    cases h : (idsOf B).contains (a.id.getD "") with
    | false =>
      simp [h]
      simpa using ih
    | true =>
      simp [h]
      simpa using ih

theorem find_common_artists_ok (A B : List Artist)
    (hIdsA : HasIds A) (hIdsB : HasIds B) (hU : (idsOf A).Nodup) :
    find_common_artists A B = Except.ok (commonList A B) := by
  unfold find_common_artists
  rw [buildIdDict_ok A [] hIdsA hU (by simp), collectIds_ok B hIdsB]
  exact congrArg Except.ok (map_pair_filter_snd B A)

theorem projectCommon_ok (l : List Artist) (h : HasNames l) :
    projectCommon l = Except.ok
      (l.map (fun a => CommonArtistOut.mk (a.name.getD "") (a.popularity.getD 0))) := by
  induction l with
  | nil => rfl
  | cons a rest ih =>
    obtain ⟨n, hn⟩ := Option.isSome_iff_exists.mp (h a (by simp))
    have hrest : HasNames rest := fun x hx => h x (by simp [hx])
    simp [projectCommon, hn, ih hrest]

theorem calculate_affinity_eq_reportOf (A B : List Artist) (hA : A ≠ []) (hB : B ≠ [])
    (hIdsA : HasIds A) (hIdsB : HasIds B) (hU : (idsOf A).Nodup)
    (hNamesA : HasNames A) :
    calculate_affinity A B = Except.ok (reportOf A B) := by
  have hcommonNames : HasNames (commonList A B) := by
    intro x hx
    exact hNamesA x (List.mem_of_mem_filter hx)
  have hguard : (A.isEmpty || B.isEmpty) = false := by
    cases A with
    | nil => exact absurd rfl hA
    | cons a as =>
      cases B with
      | nil => exact absurd rfl hB
      | cons b bs => rfl
  have hguard' : ¬ (A.isEmpty || B.isEmpty) = true := by
    simp [hguard]
  unfold calculate_affinity
  rw [if_neg hguard']
  simp only [find_common_artists_ok A B hIdsA hIdsB hU]
  simp only [projectCommon_ok (commonList A B) hcommonNames]
  rfl

/-! Entropy bounds: the normalized Shannon diversity lies in [0, 1]. -/

theorem sum_negMulLog_le_log_card (s : Finset String) (p : String → ℝ)
    (hpos : ∀ a ∈ s, 0 < p a) (hsum : ∑ a ∈ s, p a = 1) :
    ∑ a ∈ s, Real.negMulLog (p a) ≤ Real.log (s.card : ℝ) := by
  have hconc : ConcaveOn ℝ (Set.Ioi (0 : ℝ)) Real.log :=
    strictConcaveOn_log_Ioi.concaveOn
  have hj := hconc.le_map_sum (t := s) (w := p) (p := fun a => (p a)⁻¹)
    (fun a ha => (hpos a ha).le) hsum
    (fun a ha => Set.mem_Ioi.mpr (inv_pos.mpr (hpos a ha)))
  have hsum2 : ∑ a ∈ s, p a • (p a)⁻¹ = (s.card : ℝ) := by
    have hone : ∀ a ∈ s, p a • (p a)⁻¹ = 1 := by
      intro a ha
      rw [smul_eq_mul, mul_inv_cancel₀ (hpos a ha).ne']
    rw [Finset.sum_congr rfl hone, Finset.sum_const, nsmul_eq_mul, mul_one]
  have hterm : ∀ a ∈ s, p a • Real.log ((p a)⁻¹) = Real.negMulLog (p a) := by
    intro a ha
    rw [smul_eq_mul, Real.log_inv]
    simp [Real.negMulLog]
  rw [Finset.sum_congr rfl hterm, hsum2] at hj
  exact hj

theorem spec_normalized_entropy_nonneg (l : List String) :
    0 ≤ spec_normalized_entropy l := by
  unfold spec_normalized_entropy
  split_ifs with h
  · exact le_refl 0
  · push_neg at h
    have hl : l ≠ [] := by
      intro heq
      rw [heq] at h
      simp at h
    have hlen : 0 < l.length := List.length_pos.mpr hl
    have hlen' : (0 : ℝ) < (l.length : ℝ) := by exact_mod_cast hlen
    apply div_nonneg
    · apply Finset.sum_nonneg
      intro g hg
      have hgl : g ∈ l := List.mem_toFinset.mp hg
      have hc0 : (0 : ℝ) < (l.count g : ℝ) := by
        exact_mod_cast List.count_pos_iff.mpr hgl
      have hp0 : 0 < (l.count g : ℝ) / (l.length : ℝ) := div_pos hc0 hlen'
      have hp1 : (l.count g : ℝ) / (l.length : ℝ) ≤ 1 := by
        rw [div_le_one hlen']
        exact_mod_cast List.count_le_length g l
      have hlog : Real.logb 2 ((l.count g : ℝ) / (l.length : ℝ)) ≤ 0 :=
        Real.logb_nonpos one_lt_two hp0.le hp1
      nlinarith [mul_nonneg hp0.le (neg_nonneg.mpr hlog)]
    · exact Real.logb_nonneg one_lt_two (by exact_mod_cast h.le)

theorem spec_normalized_entropy_le_one (l : List String) :
    spec_normalized_entropy l ≤ 1 := by
  unfold spec_normalized_entropy
  split_ifs with h
  · norm_num
  · push_neg at h
    have hl : l ≠ [] := by
      intro heq
      rw [heq] at h
      simp at h
    have hlen : 0 < l.length := List.length_pos.mpr hl
    have hlen' : (0 : ℝ) < (l.length : ℝ) := by exact_mod_cast hlen
    have hlogk : 0 < Real.logb 2 ((l.toFinset.card : ℕ) : ℝ) :=
      Real.logb_pos one_lt_two (by exact_mod_cast h)
    rw [div_le_one hlogk]
    have hterm : ∀ g ∈ l.toFinset,
        -(((l.count g : ℝ) / (l.length : ℝ)) *
            Real.logb 2 ((l.count g : ℝ) / (l.length : ℝ)))
          = Real.negMulLog ((l.count g : ℝ) / (l.length : ℝ)) / Real.log 2 := by
      intro g _
      simp only [Real.logb, Real.negMulLog]
      ring
    rw [Finset.sum_congr rfl hterm, ← Finset.sum_div, Real.logb]
    gcongr
    apply sum_negMulLog_le_log_card
    · intro g hg
      have hgl : g ∈ l := List.mem_toFinset.mp hg
      have hc0 : (0 : ℝ) < (l.count g : ℝ) := by
        exact_mod_cast List.count_pos_iff.mpr hgl
      exact div_pos hc0 hlen'
    · rw [← Finset.sum_div]
      have hnat : ∑ g ∈ l.toFinset, l.count g = l.length := by
        have := Multiset.toFinset_sum_count_eq (l : Multiset String)
        simpa using this
      have hcast : ∑ g ∈ l.toFinset, (l.count g : ℝ) = (l.length : ℝ) := by
        exact_mod_cast congrArg Nat.cast hnat
      rw [hcast, div_self hlen'.ne']

theorem genre_diversity_eq_spec (A : List Artist) :
    calculate_genre_diversity A = spec_normalized_entropy (genreList A) := by
  unfold calculate_genre_diversity spec_normalized_entropy
  by_cases hl : genreList A = []
  · rw [if_pos hl, if_pos]
    rw [hl]
    simp
  · rw [if_neg hl]
    by_cases hk : (genreList A).toFinset.card ≤ 1
    · rw [if_pos hk]
      have hne : (genreList A).toFinset.Nonempty := by
        obtain ⟨x, hx⟩ := List.exists_mem_of_ne_nil _ hl
        exact ⟨x, List.mem_toFinset.mpr hx⟩
      have hck : (genreList A).toFinset.card = 1 :=
        le_antisymm hk (Finset.card_pos.mpr hne)
      obtain ⟨g, hg⟩ := Finset.card_eq_one.mp hck
      have hallg : ∀ x ∈ genreList A, g = x := by
        intro x hx
        have hx' : x ∈ (genreList A).toFinset := List.mem_toFinset.mpr hx
        rw [hg] at hx'
        exact (Finset.mem_singleton.mp hx').symm
      have hcount : (genreList A).count g = (genreList A).length :=
        List.count_eq_length.mpr hallg
      have hlen : 0 < (genreList A).length :=
        List.length_pos.mpr hl
      have hlen' : (0 : ℝ) < ((genreList A).length : ℝ) := by exact_mod_cast hlen
      have hnotlt : ¬ 1 < (genreList A).toFinset.card := by omega
      rw [if_neg hnotlt, if_pos one_pos, div_one, hg, Finset.sum_singleton, hcount,
        div_self hlen'.ne']
      simp
    · push_neg at hk
      rw [if_neg (by omega : ¬ (genreList A).toFinset.card ≤ 1), if_pos hk,
        if_pos (Real.logb_pos one_lt_two (by exact_mod_cast hk))]

theorem calculate_genre_diversity_nonneg (A : List Artist) :
    0 ≤ calculate_genre_diversity A := by
  rw [genre_diversity_eq_spec]
  exact spec_normalized_entropy_nonneg _

theorem calculate_genre_diversity_le_one (A : List Artist) :
    calculate_genre_diversity A ≤ 1 := by
  rw [genre_diversity_eq_spec]
  exact spec_normalized_entropy_le_one _

theorem diversity_compatibility_bounds (A B : List Artist) :
    0 ≤ calculate_diversity_compatibility A B ∧
      calculate_diversity_compatibility A B ≤ 1 := by
  have h1 := calculate_genre_diversity_nonneg A
  have h2 := calculate_genre_diversity_le_one A
  have h3 := calculate_genre_diversity_nonneg B
  have h4 := calculate_genre_diversity_le_one B
  unfold calculate_diversity_compatibility
  have habs : |calculate_genre_diversity A - calculate_genre_diversity B| ≤ 1 :=
    abs_le.mpr ⟨by linarith, by linarith⟩
  have habs0 : 0 ≤ |calculate_genre_diversity A - calculate_genre_diversity B| :=
    abs_nonneg _
  constructor
  · simp only [div_one]
    linarith
  · simp only [div_one]
    linarith

/-! Sub-score bounds and agreement of the code-side sub-scores with the
spec-side formulas. -/

theorem genre_similarity_eq_spec (A B : List Artist) :
    calculate_genre_similarity A B = spec_genre_score A B := by
  unfold calculate_genre_similarity spec_genre_score
  by_cases h : extract_genres A = ∅ ∨ extract_genres B = ∅
  · rw [if_pos h, if_pos h]
  · rw [if_neg h, if_neg h]
    push_neg at h
    have hne : (extract_genres A ∪ extract_genres B).Nonempty := by
      obtain ⟨x, hx⟩ := Finset.nonempty_iff_ne_empty.mpr h.1
      exact ⟨x, Finset.mem_union_left _ hx⟩
    rw [if_pos (Finset.card_pos.mpr hne)]

theorem genre_similarity_bounds (A B : List Artist) :
    0 ≤ calculate_genre_similarity A B ∧ calculate_genre_similarity A B ≤ 1 := by
  unfold calculate_genre_similarity
  dsimp only
  split_ifs with h h2
  · norm_num
  · constructor
    · positivity
    · rw [div_le_one (by exact_mod_cast h2)]
      exact_mod_cast Finset.card_le_card (Finset.inter_subset_union)
  · norm_num

theorem max_similarity_bounds (t : ℝ) (ht : 0 ≤ t) :
    0 ≤ max 0 (1 - t / 100) ∧ max 0 (1 - t / 100) ≤ 1 := by
  constructor
  · exact le_max_left 0 _
  · apply max_le (by norm_num)
    have ht' : 0 ≤ t / 100 := by positivity
    linarith

theorem popularity_similarity_bounds (A B : List Artist) :
    0 ≤ calculate_popularity_similarity A B ∧
      calculate_popularity_similarity A B ≤ 1 := by
  unfold calculate_popularity_similarity
  dsimp only
  split_ifs with h
  · norm_num
  · exact max_similarity_bounds _ (abs_nonneg _)

theorem popularity_similarity_eq_spec (A B : List Artist) (hA : A ≠ []) (hB : B ≠ [])
    (hPA : HasPops A) (hPB : HasPops B) :
    calculate_popularity_similarity A B = spec_popularity_score A B := by
  unfold calculate_popularity_similarity spec_popularity_score spec_mean_popularity
  dsimp only
  rw [filterMap_pop_eq_map A hPA, filterMap_pop_eq_map B hPB]
  have hne : ¬ (A.map (fun a => a.popularity.getD 50) = [] ∨
      B.map (fun a => a.popularity.getD 50) = []) := by
    simp [List.map_eq_nil_iff, hA, hB]
  rw [if_neg hne]

theorem diversity_compatibility_eq_spec (A B : List Artist) :
    calculate_diversity_compatibility A B = spec_diversity_score A B := by
  unfold calculate_diversity_compatibility spec_diversity_score
  dsimp only
  rw [genre_diversity_eq_spec A, genre_diversity_eq_spec B, div_one]

theorem commonList_length_eq_card (A B : List Artist)
    (hIdsA : HasIds A) (hIdsB : HasIds B) (hU : (idsOf A).Nodup) :
    (commonList A B).length
      = ((A.filterMap Artist.id).toFinset ∩ (B.filterMap Artist.id).toFinset).card := by
  rw [filterMap_id_eq_idsOf A hIdsA, filterMap_id_eq_idsOf B hIdsB]
  have hlen : (commonList A B).length
      = ((idsOf A).filter (fun i => (idsOf B).contains i)).length := by
    simp only [commonList, idsOf, List.filter_map, List.length_map]
    rfl
  rw [hlen]
  have hnd : ((idsOf A).filter (fun i => (idsOf B).contains i)).Nodup :=
    hU.filter _
  rw [← List.toFinset_card_of_nodup hnd]
  congr 1
  ext x
  simp [List.mem_filter]

theorem common_score_bounds (A B : List Artist) (hA : A ≠ []) :
    0 ≤ ((commonList A B).length : ℝ) / ((max A.length B.length : ℕ) : ℝ) ∧
      ((commonList A B).length : ℝ) / ((max A.length B.length : ℕ) : ℝ) ≤ 1 := by
  have hmax : 0 < max A.length B.length :=
    lt_of_lt_of_le (List.length_pos.mpr hA) (le_max_left _ _)
  have hmax' : (0 : ℝ) < ((max A.length B.length : ℕ) : ℝ) := by exact_mod_cast hmax
  have hlen : (commonList A B).length ≤ max A.length B.length :=
    le_trans (List.length_filter_le _ _) (le_max_left _ _)
  constructor
  · positivity
  · rw [div_le_one hmax']
    exact_mod_cast hlen

/-- Claim C1: on non-empty well-formed profiles (ids, names, popularity
present, popularity in [0,100], ids unique within each profile) the
overall affinity score returned by calculate_affinity is the weighted sum
0.4, 0.3, 0.2, 0.1 of the four spec sub-scores (common-artist overlap,
genre Jaccard, popularity similarity, diversity compatibility), converted
to a percentage and rounded to the nearest integer. -/
theorem calculate_affinity_matches_spec (A B : List Artist)
    (hA : A ≠ []) (hB : B ≠ [])
    (hIdsA : HasIds A) (hIdsB : HasIds B) (hNamesA : HasNames A)
    (hPopsA : HasPops A) (hPopsB : HasPops B)
    (hRangeA : PopsInRange A) (hRangeB : PopsInRange B)
    (hUA : UniqueIds A) (hUB : UniqueIds B) :
    (calculate_affinity A B).map AffinityReport.affinity_score
      = Except.ok (pythonRound (spec_overall_score A B * 100)) := by
  have hUA' : (idsOf A).Nodup := by
    rw [← filterMap_id_eq_idsOf A hIdsA]
    exact hUA
  have e1 : ((commonList A B).length : ℝ) / ((max A.length B.length : ℕ) : ℝ)
      = spec_common_artist_score A B := by
    unfold spec_common_artist_score
    rw [commonList_length_eq_card A B hIdsA hIdsB hUA']
  have e2 := genre_similarity_eq_spec A B
  have e3 := popularity_similarity_eq_spec A B hA hB hPopsA hPopsB
  have e4 := diversity_compatibility_eq_spec A B
  have key : (reportOf A B).affinity_score
      = pythonRound (spec_overall_score A B * 100) := by
    unfold reportOf
    dsimp only
    congr 1
    rw [e1, e2, e3, e4]
    unfold spec_overall_score weights_common_artists weights_genre_similarity
      weights_popularity_similarity weights_artist_diversity
    ring
  rw [calculate_affinity_eq_reportOf A B hA hB hIdsA hIdsB hUA' hNamesA]
  simp [Except.map, key]

/-- Witness for claim C1 on a concrete pair of well-formed profiles. -/
theorem calculate_affinity_matches_spec_witness :
    (sampleA ≠ [] ∧ sampleB ≠ [] ∧ HasIds sampleA ∧ HasIds sampleB ∧
      HasNames sampleA ∧ HasPops sampleA ∧ HasPops sampleB ∧
      PopsInRange sampleA ∧ PopsInRange sampleB ∧
      UniqueIds sampleA ∧ UniqueIds sampleB) ∧
    (calculate_affinity sampleA sampleB).map AffinityReport.affinity_score
      = Except.ok (pythonRound (spec_overall_score sampleA sampleB * 100)) :=
  ⟨⟨by decide, by decide, by decide, by decide, by decide, by decide, by decide,
    by decide, by decide, by decide, by decide⟩,
   calculate_affinity_matches_spec sampleA sampleB (by decide) (by decide) (by decide)
     (by decide) (by decide) (by decide) (by decide) (by decide) (by decide)
     (by decide) (by decide)⟩

/-- Claim C3: on non-empty well-formed profiles with popularity in
[0,100], the affinity score and every detailed_scores value lie in
[0,100]. -/
theorem affinity_scores_bounded (A B : List Artist) (hA : A ≠ []) (hB : B ≠ [])
    (hIdsA : HasIds A) (hIdsB : HasIds B) (hNamesA : HasNames A) (hUA : UniqueIds A)
    (hRangeA : PopsInRange A) (hRangeB : PopsInRange B) :
    ∃ r, calculate_affinity A B = Except.ok r ∧
      0 ≤ r.affinity_score ∧ r.affinity_score ≤ 100 ∧
      0 ≤ r.detailed_scores.common_artists ∧ r.detailed_scores.common_artists ≤ 100 ∧
      0 ≤ r.detailed_scores.genre_similarity ∧
      r.detailed_scores.genre_similarity ≤ 100 ∧
      0 ≤ r.detailed_scores.popularity_similarity ∧
      r.detailed_scores.popularity_similarity ≤ 100 ∧
      0 ≤ r.detailed_scores.diversity_compatibility ∧
      r.detailed_scores.diversity_compatibility ≤ 100 := by
  have hUA' : (idsOf A).Nodup := by
    rw [← filterMap_id_eq_idsOf A hIdsA]
    exact hUA
  refine ⟨reportOf A B,
    calculate_affinity_eq_reportOf A B hA hB hIdsA hIdsB hUA' hNamesA, ?_⟩
  have round01 : ∀ s : ℝ, 0 ≤ s → s ≤ 1 →
      0 ≤ pythonRound (s * 100) ∧ pythonRound (s * 100) ≤ 100 := by
    intro s h0 h1
    refine ⟨pythonRound_nonneg (by linarith), ?_⟩
    have hcast : s * 100 ≤ ((100 : ℤ) : ℝ) := by
      push_cast
      linarith
    exact pythonRound_le hcast
  obtain ⟨hc0, hc1⟩ := common_score_bounds A B hA
  obtain ⟨hg0, hg1⟩ := genre_similarity_bounds A B
  obtain ⟨hp0, hp1⟩ := popularity_similarity_bounds A B
  obtain ⟨hd0, hd1⟩ := diversity_compatibility_bounds A B
  have hov0 : 0 ≤ ((commonList A B).length : ℝ) / ((max A.length B.length : ℕ) : ℝ)
        * weights_common_artists
      + calculate_genre_similarity A B * weights_genre_similarity
      + calculate_popularity_similarity A B * weights_popularity_similarity
      + calculate_diversity_compatibility A B * weights_artist_diversity := by
    unfold weights_common_artists weights_genre_similarity
      weights_popularity_similarity weights_artist_diversity
    linarith
  have hov1 : ((commonList A B).length : ℝ) / ((max A.length B.length : ℕ) : ℝ)
        * weights_common_artists
      + calculate_genre_similarity A B * weights_genre_similarity
      + calculate_popularity_similarity A B * weights_popularity_similarity
      + calculate_diversity_compatibility A B * weights_artist_diversity ≤ 1 := by
    unfold weights_common_artists weights_genre_similarity
      weights_popularity_similarity weights_artist_diversity
    linarith
  unfold reportOf
  dsimp only
  exact ⟨(round01 _ hov0 hov1).1, (round01 _ hov0 hov1).2,
    (round01 _ hc0 hc1).1, (round01 _ hc0 hc1).2,
    (round01 _ hg0 hg1).1, (round01 _ hg0 hg1).2,
    (round01 _ hp0 hp1).1, (round01 _ hp0 hp1).2,
    (round01 _ hd0 hd1).1, (round01 _ hd0 hd1).2⟩

/-- Witness for claim C3 on a concrete pair of well-formed profiles. -/
theorem affinity_scores_bounded_witness :
    (sampleA ≠ [] ∧ sampleB ≠ [] ∧ HasIds sampleA ∧ HasIds sampleB ∧
      HasNames sampleA ∧ UniqueIds sampleA ∧
      PopsInRange sampleA ∧ PopsInRange sampleB) ∧
    (∃ r, calculate_affinity sampleA sampleB = Except.ok r ∧
      0 ≤ r.affinity_score ∧ r.affinity_score ≤ 100 ∧
      0 ≤ r.detailed_scores.common_artists ∧ r.detailed_scores.common_artists ≤ 100 ∧
      0 ≤ r.detailed_scores.genre_similarity ∧
      r.detailed_scores.genre_similarity ≤ 100 ∧
      0 ≤ r.detailed_scores.popularity_similarity ∧
      r.detailed_scores.popularity_similarity ≤ 100 ∧
      0 ≤ r.detailed_scores.diversity_compatibility ∧
      r.detailed_scores.diversity_compatibility ≤ 100) :=
  ⟨⟨by decide, by decide, by decide, by decide, by decide, by decide,
    by decide, by decide⟩,
   affinity_scores_bounded sampleA sampleB (by decide) (by decide) (by decide)
     (by decide) (by decide) (by decide) (by decide) (by decide)⟩

/-! Self-comparison: every sub-score is 1 when a profile is compared with
itself. -/

theorem commonList_self (A : List Artist) : commonList A A = A := by
  apply List.filter_eq_self.mpr
  intro a ha
  have hmem : a.id.getD "" ∈ idsOf A := List.mem_map_of_mem (fun a => a.id.getD "") ha
  simpa using hmem

theorem genre_similarity_self (A : List Artist) (hg : genreList A ≠ []) :
    calculate_genre_similarity A A = 1 := by
  unfold calculate_genre_similarity
  dsimp only
  have hne : extract_genres A ≠ ∅ := by
    unfold extract_genres
    simpa using hg
  rw [if_neg (by simpa using hne : ¬ (extract_genres A = ∅ ∨ extract_genres A = ∅))]
  rw [Finset.inter_self, Finset.union_self]
  have hpos : 0 < (extract_genres A).card :=
    Finset.card_pos.mpr (Finset.nonempty_iff_ne_empty.mpr hne)
  rw [if_pos hpos]
  exact div_self (by exact_mod_cast hpos.ne')

theorem popularity_similarity_self (A : List Artist) (hA : A ≠ []) :
    calculate_popularity_similarity A A = 1 := by
  unfold calculate_popularity_similarity
  dsimp only
  rw [if_neg (by simp [List.map_eq_nil_iff, hA])]
  rw [sub_self, abs_zero, zero_div, sub_zero]
  exact max_eq_right (by norm_num)

theorem diversity_compatibility_self (A : List Artist) :
    calculate_diversity_compatibility A A = 1 := by
  unfold calculate_diversity_compatibility
  dsimp only
  rw [sub_self, abs_zero, zero_div, sub_zero]

/-- Claim C5: comparing a non-empty well-formed profile carrying at least
one genre tag with itself yields common_artists of full length and an
affinity score of at least 80 (in fact 100). -/
theorem self_affinity (A : List Artist) (hA : A ≠ [])
    (hIds : HasIds A) (hU : UniqueIds A) (hNames : HasNames A)
    (hg : genreList A ≠ []) :
    ∃ r, calculate_affinity A A = Except.ok r ∧
      r.common_artists.length = A.length ∧ 80 ≤ r.affinity_score := by
  have hU' : (idsOf A).Nodup := by
    rw [← filterMap_id_eq_idsOf A hIds]
    exact hU
  refine ⟨reportOf A A,
    calculate_affinity_eq_reportOf A A hA hA hIds hIds hU' hNames, ?_, ?_⟩
  · unfold reportOf
    dsimp only
    rw [List.length_map, commonList_self]
  · unfold reportOf
    dsimp only
    rw [commonList_self]
    have h1 : (A.length : ℝ) / ((max A.length A.length : ℕ) : ℝ) = 1 := by
      rw [max_self]
      exact div_self (by exact_mod_cast (List.length_pos.mpr hA).ne')
    rw [h1, genre_similarity_self A hg, popularity_similarity_self A hA,
      diversity_compatibility_self A]
    unfold weights_common_artists weights_genre_similarity
      weights_popularity_similarity weights_artist_diversity
    rw [show ((1 : ℝ) * 0.4 + 1 * 0.3 + 1 * 0.2 + 1 * 0.1) * 100 = ((100 : ℤ) : ℝ) by
      norm_num]
    rw [pythonRound_intCast 100]
    norm_num

/-- Witness for claim C5 on a concrete well-formed profile. -/
theorem self_affinity_witness :
    (sampleA ≠ [] ∧ HasIds sampleA ∧ UniqueIds sampleA ∧ HasNames sampleA ∧
      genreList sampleA ≠ []) ∧
    (∃ r, calculate_affinity sampleA sampleA = Except.ok r ∧
      r.common_artists.length = sampleA.length ∧ 80 ≤ r.affinity_score) :=
  ⟨⟨by decide, by decide, by decide, by decide, by decide⟩,
   self_affinity sampleA (by decide) (by decide) (by decide) (by decide) (by decide)⟩

theorem commonList_eq_claim (A B : List Artist)
    (hIdsA : HasIds A) (hIdsB : HasIds B) :
    commonList A B = A.filter (fun a => B.any (fun b => b.id == a.id)) := by
  unfold commonList
  apply List.filter_congr
  intro a ha
  obtain ⟨i, hi⟩ := Option.isSome_iff_exists.mp (hIdsA a ha)
  apply Bool.coe_iff_coe.mp
  constructor
  · intro hc
    have hmem : a.id.getD "" ∈ idsOf B := by simpa using hc
    obtain ⟨b, hb, hbv⟩ := List.mem_map.mp hmem
    obtain ⟨j, hj⟩ := Option.isSome_iff_exists.mp (hIdsB b hb)
    apply List.any_eq_true.mpr
    refine ⟨b, hb, ?_⟩
    simp only [hj, hi] at hbv ⊢
    simpa using hbv
  · intro hany
    obtain ⟨b, hb, hbeq⟩ := List.any_eq_true.mp hany
    have hid : b.id = a.id := by simpa using hbeq
    have hmem : a.id.getD "" ∈ idsOf B :=
      List.mem_map.mpr ⟨b, hb, by rw [hid]⟩
    simpa using hmem

/-- Claim C4: for well-formed profiles, common_artists is exactly the
artists of profile A whose id also appears in profile B, in profile-A
order, projected to name and popularity; and common_genres is the set
intersection of the flattened genre tags, as a strictly sorted (hence
case-sensitive lexicographic, duplicate-free) sequence. -/
theorem common_artists_genres_spec (A B : List Artist)
    (hIdsA : HasIds A) (hIdsB : HasIds B) (hUA : UniqueIds A) (hNamesA : HasNames A) :
    ∃ r, calculate_affinity A B = Except.ok r ∧
      r.common_artists = (A.filter (fun a => B.any (fun b => b.id == a.id))).map
          (fun a => CommonArtistOut.mk (a.name.getD "") (a.popularity.getD 0)) ∧
      List.Sorted (fun x y : String => x < y) r.common_genres ∧
      ∀ g, g ∈ r.common_genres ↔ (g ∈ genreList A ∧ g ∈ genreList B) := by
  by_cases hA : A = []
  · subst hA
    refine ⟨create_empty_result, by simp [calculate_affinity], ?_, ?_, ?_⟩
    · simp [create_empty_result]
    · simp [create_empty_result]
    · intro g
      simp [create_empty_result, genreList]
  · by_cases hB : B = []
    · subst hB
      refine ⟨create_empty_result, by simp [calculate_affinity], ?_, ?_, ?_⟩
      · simp [create_empty_result]
      · simp [create_empty_result]
      · intro g
        simp [create_empty_result, genreList]
    · have hUA' : (idsOf A).Nodup := by
        rw [← filterMap_id_eq_idsOf A hIdsA]
        exact hUA
      refine ⟨reportOf A B,
        calculate_affinity_eq_reportOf A B hA hB hIdsA hIdsB hUA' hNamesA, ?_, ?_, ?_⟩
      · unfold reportOf
        dsimp only
        rw [commonList_eq_claim A B hIdsA hIdsB]
      · unfold reportOf find_common_genres
        dsimp only
        exact Finset.sort_sorted_lt _
      · intro g
        unfold reportOf find_common_genres
        dsimp only
        rw [Finset.mem_sort (fun x y : String => x ≤ y)]
        simp [extract_genres]

/-- Witness for claim C4 on a concrete pair of well-formed profiles. -/
theorem common_artists_genres_spec_witness :
    (HasIds sampleA ∧ HasIds sampleB ∧ UniqueIds sampleA ∧ HasNames sampleA) ∧
    (∃ r, calculate_affinity sampleA sampleB = Except.ok r ∧
      r.common_artists = (sampleA.filter
          (fun a => sampleB.any (fun b => b.id == a.id))).map
          (fun a => CommonArtistOut.mk (a.name.getD "") (a.popularity.getD 0)) ∧
      List.Sorted (fun x y : String => x < y) r.common_genres ∧
      ∀ g, g ∈ r.common_genres ↔ (g ∈ genreList sampleA ∧ g ∈ genreList sampleB)) :=
  ⟨⟨by decide, by decide, by decide, by decide⟩,
   common_artists_genres_spec sampleA sampleB (by decide) (by decide) (by decide)
     (by decide)⟩

/-- Counterexample to claim C6 as stated: for a common artist record with
no popularity key, the common_artists projection outputs popularity 0, not
the 50 default used by the popularity-similarity sub-score. -/
theorem projection_default_counterexample :
    (calculate_affinity profileNoPopA profileNoPopB).map AffinityReport.common_artists
        = Except.ok [CommonArtistOut.mk "n" 0] ∧
      (calculate_affinity profileNoPopA profileNoPopB).map AffinityReport.common_artists
        ≠ Except.ok [CommonArtistOut.mk "n" 50] := by
  have h := calculate_affinity_eq_reportOf profileNoPopA profileNoPopB (by decide)
    (by decide) (by decide) (by decide) (by decide) (by decide)
  have main : (calculate_affinity profileNoPopA profileNoPopB).map
      AffinityReport.common_artists = Except.ok [CommonArtistOut.mk "n" 0] := by
    rw [h]
    simp only [Except.map]
    unfold reportOf
    dsimp only
    exact congrArg Except.ok (by decide)
  refine ⟨main, ?_⟩
  rw [main]
  intro heq
  have hinj := Except.ok.inj heq
  simp at hinj

/-- Claim C6 (amended): a missing genres key behaves as the empty genre
list in the genre-based metrics, and a missing popularity key behaves as
popularity 50 in the popularity-similarity sub-score; no error is raised
for missing optional fields; but the common_artists projection defaults a
missing popularity to 0, not 50. -/
theorem optional_field_defaults (A B : List Artist)
    (hIdsA : HasIds A) (hIdsB : HasIds B) (hUA : UniqueIds A) (hNamesA : HasNames A) :
    (∃ r, calculate_affinity A B = Except.ok r ∧
        r.common_artists = (commonList A B).map
          (fun a => CommonArtistOut.mk (a.name.getD "") (a.popularity.getD 0))) ∧
      calculate_popularity_similarity A B
        = calculate_popularity_similarity (A.map fillPopularity) (B.map fillPopularity) ∧
      calculate_genre_similarity A B
        = calculate_genre_similarity (A.map fillGenres) (B.map fillGenres) ∧
      calculate_diversity_compatibility A B
        = calculate_diversity_compatibility (A.map fillGenres) (B.map fillGenres) := by
  have hgen : ∀ C : List Artist, genreList (C.map fillGenres) = genreList C := by
    intro C
    unfold genreList
    rw [List.map_map]
    rfl
  have hdiv : ∀ C : List Artist,
      calculate_genre_diversity (C.map fillGenres) = calculate_genre_diversity C := by
    intro C
    unfold calculate_genre_diversity
    rw [hgen C]
  refine ⟨?_, ?_, ?_, ?_⟩
  · by_cases hA : A = []
    · subst hA
      exact ⟨create_empty_result, by simp [calculate_affinity],
        by simp [create_empty_result, commonList]⟩
    · by_cases hB : B = []
      · subst hB
        refine ⟨create_empty_result, by simp [calculate_affinity], ?_⟩
        simp [create_empty_result, commonList, idsOf]
      · have hUA' : (idsOf A).Nodup := by
          rw [← filterMap_id_eq_idsOf A hIdsA]
          exact hUA
        exact ⟨reportOf A B,
          calculate_affinity_eq_reportOf A B hA hB hIdsA hIdsB hUA' hNamesA, rfl⟩
  · unfold calculate_popularity_similarity
    dsimp only
    rw [List.map_map, List.map_map]
    rfl
  · unfold calculate_genre_similarity extract_genres
    rw [hgen A, hgen B]
  · unfold calculate_diversity_compatibility
    rw [hdiv A, hdiv B]

/-- Witness for the amended optional-field claim on concrete profiles with
missing popularity and genres keys. -/
theorem optional_field_defaults_witness :
    (HasIds profileNoPopA ∧ HasIds profileNoPopB ∧ UniqueIds profileNoPopA ∧
      HasNames profileNoPopA) ∧
    (∃ r, calculate_affinity profileNoPopA profileNoPopB = Except.ok r ∧
        r.common_artists = (commonList profileNoPopA profileNoPopB).map
          (fun a => CommonArtistOut.mk (a.name.getD "") (a.popularity.getD 0))) :=
  ⟨⟨by decide, by decide, by decide, by decide⟩,
   (optional_field_defaults profileNoPopA profileNoPopB (by decide) (by decide)
     (by decide) (by decide)).1⟩

theorem buildIdDict_total (A : List Artist) :
    ∀ d, HasIds A → ∃ d', buildIdDict A d = Except.ok d' ∧
      ∀ p ∈ d', p.2 ∈ A ∨ p ∈ d := by
  induction A with
  | nil => exact fun d _ => ⟨d, rfl, fun p hp => Or.inr hp⟩
  | cons a rest ih =>
    intro d hids
    obtain ⟨i, hi⟩ := Option.isSome_iff_exists.mp (hids a (by simp))
    have hrest : HasIds rest := fun x hx => hids x (by simp [hx])
    obtain ⟨d', hd', hsub⟩ := ih (dictUpsert d i a) hrest
    refine ⟨d', by simp [buildIdDict, hi, hd'], ?_⟩
    intro p hp
    rcases hsub p hp with hmem | hmem
    · exact Or.inl (by simp [hmem])
    · have hcases : p = (i, a) ∨ p ∈ d := by
        unfold dictUpsert at hmem
        split_ifs at hmem with hc
        · obtain ⟨q, hq, hqe⟩ := List.mem_map.mp hmem
          by_cases hqc : (q.1 == i) = true
          · left
            rw [← hqe]
            simp [hqc]
          · right
            rw [← hqe]
            simp only [hqc]
            simpa [hqc] using hq
        · rcases List.mem_append.mp hmem with hmem' | hmem'
          · exact Or.inr hmem'
          · left
            simpa using hmem'
      rcases hcases with hpe | hpd
      · left
        rw [hpe]
        simp
      · exact Or.inr hpd

theorem find_common_artists_total (A B : List Artist)
    (hIdsA : HasIds A) (hIdsB : HasIds B) :
    ∃ l, find_common_artists A B = Except.ok l ∧ ∀ x ∈ l, x ∈ A := by
  obtain ⟨d', hd', hsub⟩ := buildIdDict_total A [] hIdsA
  refine ⟨(d'.filter (fun p => (idsOf B).contains p.1)).map Prod.snd, ?_, ?_⟩
  · unfold find_common_artists
    rw [hd', collectIds_ok B hIdsB]
  · intro x hx
    obtain ⟨p, hp, hpe⟩ := List.mem_map.mp hx
    rcases hsub p (List.mem_of_mem_filter hp) with hmem | hmem
    · rw [← hpe]
      exact hmem
    · simp at hmem

/-- Claim C7: on any pair of well-formed inputs (sequences of records
carrying id and name) calculate_affinity returns a complete report; in the
embedding its only failure mode is the MalformedInput error raised for a
missing required key, and the function is pure, so it either returns a
complete report or signals MalformedInput, never failing partially. -/
theorem calculate_affinity_total (A B : List Artist)
    (hA : ∀ a ∈ A, a.id.isSome = true ∧ a.name.isSome = true)
    (hB : ∀ b ∈ B, b.id.isSome = true ∧ b.name.isSome = true) :
    ∃ r, calculate_affinity A B = Except.ok r := by
  by_cases hAe : (A.isEmpty || B.isEmpty) = true
  · exact ⟨create_empty_result, by unfold calculate_affinity; rw [if_pos hAe]⟩
  · obtain ⟨l, hl, hsub⟩ := find_common_artists_total A B
      (fun a ha => (hA a ha).1) (fun b hb => (hB b hb).1)
    have hnames : HasNames l := fun x hx => (hA x (hsub x hx)).2
    unfold calculate_affinity
    rw [if_neg hAe]
    simp only [hl, projectCommon_ok l hnames]
    exact ⟨_, rfl⟩

/-- Witness for claim C7 on concrete well-formed profiles. -/
theorem calculate_affinity_total_witness :
    ((∀ a ∈ sampleA, a.id.isSome = true ∧ a.name.isSome = true) ∧
      (∀ b ∈ sampleB, b.id.isSome = true ∧ b.name.isSome = true)) ∧
    ∃ r, calculate_affinity sampleA sampleB = Except.ok r :=
  ⟨⟨by decide, by decide⟩,
   calculate_affinity_total sampleA sampleB (by decide) (by decide)⟩

end SongSoulmate
